import Mathlib

/-
Verification of the extension metadata registry declared in
src/Core/GDCore/Extensions/PlatformExtension.h (GDevelop Core).

The registry keeps, per extension, one catalog per capability category
(conditions, actions, expressions, string expressions, objects, behaviors,
events), each a std::map from a gd::String key to a metadata record.  The
header is the only file of the repository available; the bodies that live in
PlatformExtension.cpp and the metadata record classes are reconstructed from
the specification and from the documentation comments of the header, and each
such definition is marked as modelled.

std::map<gd::String, V> is embedded as a strictly key sorted association list
List (String × V): lookup (find), insert or assign (operator[] followed by
assignment), size, and iteration in ascending key order are all represented
faithfully by the functions below.
-/

namespace GD

/-- Strict lexicographic comparison of character lists by code point: the
order in which a std::map keyed by strings arranges its entries. -/
def charListLt : List Char → List Char → Bool
  | _, [] => false
  | [], _ :: _ => true
  | a :: as, b :: bs =>
    if a.toNat < b.toNat then true
    else if b.toNat < a.toNat then false
    else charListLt as bs

/-- The key order of the catalogs: strict lexicographic order on strings. -/
def keyLt (a b : String) : Bool :=
  charListLt a.data b.data

/-- Embedding of std::map insertion-or-assignment: place the binding at its
ordered position, replacing an existing binding with the same key.  This is
the effect of writing through operator[] on a std::map. -/
def mapInsert {V : Type} (k : String) (v : V) : List (String × V) → List (String × V)
  | [] => [(k, v)]
  | p :: rest =>
    if keyLt k p.1 then (k, v) :: p :: rest
    else if k = p.1 then (k, v) :: rest
    else p :: mapInsert k v rest

/-- Embedding of std::map lookup (find): first binding with the given key. -/
def mapFind {V : Type} (k : String) : List (String × V) → Option V
  | [] => none
  | p :: rest => if k = p.1 then some p.2 else mapFind k rest

/-- Number of bindings carrying the given key. -/
def mapCount {V : Type} (k : String) : List (String × V) → Nat
  | [] => 0
  | p :: rest => (if p.1 = k then 1 else 0) + mapCount k rest

/-- The strict key ordering invariant every std::map enjoys. -/
def mapSorted {V : Type} (m : List (String × V)) : Prop :=
  m.Pairwise (fun a b => keyLt a.1 b.1 = true)

/-
Data model.  The concrete metadata classes (InstructionMetadata,
ExpressionMetadata, ObjectMetadata, BehaviorMetadata, EventMetadata) and the
polymorphic runtime types (gd Object, Behavior, BehaviorsSharedData,
BaseEvent) live outside the available header; the specification treats them
as records of descriptive fields plus, where applicable, exemplar instances
or factories.  They are modelled accordingly below.
-/

/-- Modelled from the spec: gd Object (absent from src), reduced to the
observable state the registry contract mentions: the runtime chosen name and
an abstract payload standing for the rest of the object state. -/
structure Object where
  name : String := ""
  payload : String := ""
deriving DecidableEq

/-- Modelled from the spec: gd Behavior exemplar (absent from src). -/
structure Behavior where
  name : String := ""
  content : String := ""
deriving DecidableEq

/-- Modelled from the spec: gd BehaviorsSharedData exemplar (absent from src). -/
structure BehaviorsSharedData where
  content : String := ""
deriving DecidableEq

/-- Modelled from the spec: gd BaseEvent exemplar (absent from src); cloning
an event copies this value. -/
structure BaseEvent where
  eventType : String := ""
  content : String := ""
deriving DecidableEq

/-- Modelled from the spec: InstructionMetadata (class absent from src), the
record for one condition or action; its fields are exactly the arguments of
AddCondition and AddAction in the header plus the key itself. -/
structure InstructionMetadata where
  name : String := ""
  fullname : String := ""
  description : String := ""
  sentence : String := ""
  group : String := ""
  icon : String := ""
  smallicon : String := ""
deriving DecidableEq

/-- Modelled from the spec: ExpressionMetadata (class absent from src),
the record for one numeric or string expression. -/
structure ExpressionMetadata where
  name : String := ""
  fullname : String := ""
  description : String := ""
  group : String := ""
  smallicon : String := ""
deriving DecidableEq

/-- Modelled from the spec: ObjectMetadata (class absent from src).  The
creation factory CreateFunPtr from the header (a std function that may be
empty) is an Option of a Lean function. -/
structure ObjectMetadata where
  name : String := ""
  fullname : String := ""
  description : String := ""
  icon24x24 : String := ""
  createFunPtr : Option (String → Object) := none

/-- Modelled from the spec: BehaviorMetadata (class absent from src), holding
the exemplar Behavior and the optional shared data exemplar (a shared_ptr that
may be null). -/
structure BehaviorMetadata where
  name : String := ""
  fullname : String := ""
  defaultName : String := ""
  description : String := ""
  group : String := ""
  icon24x24 : String := ""
  className : String := ""
  instance_ : Behavior := {}
  sharedDatasInstance : Option BehaviorsSharedData := none

/-- Modelled from the spec: EventMetadata (class absent from src), holding
the exemplar BaseEvent used as a prototype for cloning. -/
structure EventMetadata where
  name : String := ""
  fullname : String := ""
  description : String := ""
  group : String := ""
  smallicon : String := ""
  instance_ : BaseEvent := {}
deriving DecidableEq

/-- The PlatformExtension state: identity fields and one catalog per category,
exactly the private data members of the header (lines 442 to 464), with the
GD_IDE_ONLY build selected so that all catalogs are present. -/
structure PlatformExtension where
  name : String := ""
  nameSpace : String := ""
  fullname : String := ""
  informations : String := ""
  author : String := ""
  license : String := ""
  deprecated : Bool := false
  helpPath : String := ""
  objectsInfos : List (String × ObjectMetadata) := []
  behaviorsInfo : List (String × BehaviorMetadata) := []
  conditionsInfos : List (String × InstructionMetadata) := []
  actionsInfos : List (String × InstructionMetadata) := []
  expressionsInfos : List (String × ExpressionMetadata) := []
  strExpressionsInfos : List (String × ExpressionMetadata) := []
  eventsInfos : List (String × EventMetadata) := []

/-- The process wide namespace separator literal, header line 433. -/
def GetNamespaceSeparator : String := "::"

/-- The sentinel ObjectMetadata: default constructed, header line 466.  It is
a plain (non static) data member of PlatformExtension; since it is never
written to, it always equals this default constructed value and is modelled
as a constant. -/
def badObjectMetadata : ObjectMetadata := {}

/-- The sentinel BehaviorMetadata: default constructed, header line 467, a
plain (non static) data member, modelled as a constant like the object one. -/
def badBehaviorMetadata : BehaviorMetadata := {}

/-- The static sentinel map for conditions, header lines 469 to 471: a
default constructed (empty) std::map. -/
def badConditionsMetadata : List (String × InstructionMetadata) := []

/-- The static sentinel map for actions, header lines 472 to 474. -/
def badActionsMetadata : List (String × InstructionMetadata) := []

/-- The static sentinel map for expressions, header lines 475 to 477. -/
def badExpressionsMetadata : List (String × ExpressionMetadata) := []

/-- The static sentinel map for string expressions, header lines 478 to 480. -/
def badStrExpressionsMetadata : List (String × ExpressionMetadata) := []

/-- The capability categories that own a sentinel record. -/
inductive SentinelCategory
  | object
  | behavior
  | condition
  | action
  | expression
  | strExpression
deriving DecidableEq

/-- C++ storage class of a class member: a static member exists once per
process and is shared by every instance, a plain data member exists once per
PlatformExtension instance. -/
inductive CxxStorage
  | staticMember
  | instanceMember
deriving DecidableEq

/-- Storage class of each category sentinel, transcribed from the header:
badObjectMetadata and badBehaviorMetadata are declared as plain data members
(lines 466 and 467) while the four instruction and expression sentinels are
declared static (lines 468 to 481). -/
def sentinelStorage : SentinelCategory → CxxStorage
  | SentinelCategory.object => CxxStorage.instanceMember
  | SentinelCategory.behavior => CxxStorage.instanceMember
  | SentinelCategory.condition => CxxStorage.staticMember
  | SentinelCategory.action => CxxStorage.staticMember
  | SentinelCategory.expression => CxxStorage.staticMember
  | SentinelCategory.strExpression => CxxStorage.staticMember

/-- Modelled from the spec: SetNameSpace (body in the missing
PlatformExtension.cpp) derives the namespace by appending the separator to
the extension name, per section 4.1 of the spec and the header comment on
GetNameSpace (lines 262 to 267). -/
def SetNameSpace (e : PlatformExtension) (nameSpace_ : String) : PlatformExtension :=
  { e with nameSpace := nameSpace_ ++ GetNamespaceSeparator }

/-- Modelled from the spec: SetExtensionInformation (body missing) stores the
identity fields and derives the namespace from the name. -/
def SetExtensionInformation (e : PlatformExtension)
    (name_ fullname_ description_ author_ license_ : String) : PlatformExtension :=
  SetNameSpace
    { e with
      name := name_
      fullname := fullname_
      informations := description_
      author := author_
      license := license_ }
    name_

/-- The key a registration call stores its record under: the header documents
(lines 436 to 446) that the namespace is the string every registered
condition, action, expression, object, behavior and event starts with, so the
registering name gets the namespace prepended.  A default constructed
extension has an empty namespace, in which case the key is the name verbatim. -/
def nameWithNamespace (e : PlatformExtension) (name_ : String) : String :=
  e.nameSpace ++ name_

/-- Modelled from the spec: AddCondition (body missing; header lines 107 to
117).  Inserts a record populated from the arguments under the namespaced key
and returns the reference to the stored record, modelled as the pair of the
new state and the stored key (the handle the reference designates). -/
def AddCondition (e : PlatformExtension)
    (name_ fullname_ description_ sentence_ group_ icon_ smallicon_ : String) :
    PlatformExtension × String :=
  let key := nameWithNamespace e name_
  ({ e with
      conditionsInfos := mapInsert key
        { name := key, fullname := fullname_, description := description_,
          sentence := sentence_, group := group_, icon := icon_,
          smallicon := smallicon_ } e.conditionsInfos },
   key)

/-- Modelled from the spec: AddAction (body missing; header lines 119 to 129),
same shape as AddCondition on the action catalog. -/
def AddAction (e : PlatformExtension)
    (name_ fullname_ description_ sentence_ group_ icon_ smallicon_ : String) :
    PlatformExtension × String :=
  let key := nameWithNamespace e name_
  ({ e with
      actionsInfos := mapInsert key
        { name := key, fullname := fullname_, description := description_,
          sentence := sentence_, group := group_, icon := icon_,
          smallicon := smallicon_ } e.actionsInfos },
   key)

/-- Modelled from the spec: AddExpression (body missing; header lines 130 to
138). -/
def AddExpression (e : PlatformExtension)
    (name_ fullname_ description_ group_ smallicon_ : String) :
    PlatformExtension × String :=
  let key := nameWithNamespace e name_
  ({ e with
      expressionsInfos := mapInsert key
        { name := key, fullname := fullname_, description := description_,
          group := group_, smallicon := smallicon_ } e.expressionsInfos },
   key)

/-- Modelled from the spec: AddStrExpression (body missing; header lines 139
to 147). -/
def AddStrExpression (e : PlatformExtension)
    (name_ fullname_ description_ group_ smallicon_ : String) :
    PlatformExtension × String :=
  let key := nameWithNamespace e name_
  ({ e with
      strExpressionsInfos := mapInsert key
        { name := key, fullname := fullname_, description := description_,
          group := group_, smallicon := smallicon_ } e.strExpressionsInfos },
   key)

/-- The factory synthesized by AddObject from a blueprint instance: clone the
exemplar and give the clone the runtime chosen name (spec section 4.4). -/
def cloneWithName (inst : Object) (name_ : String) : Object :=
  { inst with name := name_ }

/-- Modelled from the spec: the instance form of AddObject (body missing;
header lines 166 to 182).  Stores the record under the namespaced key with a
creation factory synthesized from the blueprint instance. -/
def AddObject (e : PlatformExtension)
    (name_ fullname_ description_ icon24x24_ : String) (inst : Object) :
    PlatformExtension × String :=
  let key := nameWithNamespace e name_
  ({ e with
      objectsInfos := mapInsert key
        { name := key, fullname := fullname_, description := description_,
          icon24x24 := icon24x24_,
          createFunPtr := some (cloneWithName inst) } e.objectsInfos },
   key)

/-- Modelled from the spec: AddBehavior (body missing; header lines 184 to
207). -/
def AddBehavior (e : PlatformExtension)
    (name_ fullname_ defaultName_ description_ group_ icon24x24_ className_ : String)
    (inst : Behavior) (sharedDatasInst : Option BehaviorsSharedData) :
    PlatformExtension × String :=
  let key := nameWithNamespace e name_
  ({ e with
      behaviorsInfo := mapInsert key
        { name := key, fullname := fullname_, defaultName := defaultName_,
          description := description_, group := group_,
          icon24x24 := icon24x24_, className := className_,
          instance_ := inst,
          sharedDatasInstance := sharedDatasInst } e.behaviorsInfo },
   key)

/-- Modelled from the spec: AddEvent (body missing; header lines 209 to 218). -/
def AddEvent (e : PlatformExtension)
    (name_ fullname_ description_ group_ smallicon_ : String) (inst : BaseEvent) :
    PlatformExtension × String :=
  let key := nameWithNamespace e name_
  ({ e with
      eventsInfos := mapInsert key
        { name := key, fullname := fullname_, description := description_,
          group := group_, smallicon := smallicon_,
          instance_ := inst } e.eventsInfos },
   key)

/-- Modelled from the spec: GetObjectMetadata (body missing; declared header
lines 309 to 313).  Returns the stored record when the key is present and the
sentinel otherwise; the C++ return type is a plain reference, never null,
which the total return type renders. -/
def GetObjectMetadata (e : PlatformExtension) (objectType : String) : ObjectMetadata :=
  match mapFind objectType e.objectsInfos with
  | some m => m
  | none => badObjectMetadata

/-- Modelled from the spec: GetBehaviorMetadata (body missing; declared
header lines 315 to 319). -/
def GetBehaviorMetadata (e : PlatformExtension) (behaviorType : String) : BehaviorMetadata :=
  match mapFind behaviorType e.behaviorsInfo with
  | some m => m
  | none => badBehaviorMetadata

/-- Modelled from the spec: GetObjectCreationFunctionPtr (body missing;
declared header lines 281 to 285).  The empty std function of the header is
the none case. -/
def GetObjectCreationFunctionPtr (e : PlatformExtension) (objectType : String) :
    Option (String → Object) :=
  match mapFind objectType e.objectsInfos with
  | some m => m.createFunPtr
  | none => none

/-- Modelled from the spec: CreateEvent (body missing; declared header lines
287 to 292, whose comment states that an empty pointer is returned when the
event type is not provided).  A registered key yields an owned clone of the
exemplar; cloning a value produces an independent copy. -/
def CreateEvent (e : PlatformExtension) (eventType : String) : Option BaseEvent :=
  (mapFind eventType e.eventsInfos).map (fun m => m.instance_)

/-- Modelled from the spec: GetBehavior (body missing; declared header lines
293 to 298, whose comment states that nullptr is returned when the behavior
type is not provided).  A found record yields the stored exemplar itself. -/
def GetBehavior (e : PlatformExtension) (behaviorType : String) : Option Behavior :=
  (mapFind behaviorType e.behaviorsInfo).map (fun m => m.instance_)

/-- Modelled from the spec: GetBehaviorSharedDatas (body missing; declared
header lines 300 to 307).  The stored shared data exemplar may itself be
absent, in which case the result is also none. -/
def GetBehaviorSharedDatas (e : PlatformExtension) (behaviorType : String) :
    Option BehaviorsSharedData :=
  (mapFind behaviorType e.behaviorsInfo).bind (fun m => m.sharedDatasInstance)

/-- Modelled from the spec: GetExtensionObjectsTypes (body missing; declared
header lines 269 to 273, a const member): the keys of the object catalog in
iteration order. -/
def GetExtensionObjectsTypes (e : PlatformExtension) : List String :=
  e.objectsInfos.map Prod.fst

/-- Modelled from the spec: GetBehaviorsTypes (body missing; declared header
lines 275 to 279, a const member). -/
def GetBehaviorsTypes (e : PlatformExtension) : List String :=
  e.behaviorsInfo.map Prod.fst

def GetAllActions (e : PlatformExtension) : List (String × InstructionMetadata) :=
  e.actionsInfos

def GetAllConditions (e : PlatformExtension) : List (String × InstructionMetadata) :=
  e.conditionsInfos

def GetAllExpressions (e : PlatformExtension) : List (String × ExpressionMetadata) :=
  e.expressionsInfos

def GetAllStrExpressions (e : PlatformExtension) : List (String × ExpressionMetadata) :=
  e.strExpressionsInfos

def GetAllEvents (e : PlatformExtension) : List (String × EventMetadata) :=
  e.eventsInfos

/-- Whether the key k starts with the type string t, computed on the
underlying character lists. -/
def keyStartsWith (t k : String) : Bool :=
  List.isPrefixOf t.data k.data

/-- Modelled from the spec: the per type filtered views (bodies missing;
declared header lines 349 to 396) restrict a flat catalog to the entries
whose key starts with the given type string, by a linear scan in catalog
order; when nothing matches the result is the empty (bad) mapping. -/
def mapFilterByType {V : Type} (t : String) (m : List (String × V)) :
    List (String × V) :=
  m.filter (fun p => keyStartsWith t p.1)

def GetAllActionsForObject (e : PlatformExtension) (objectType : String) :
    List (String × InstructionMetadata) :=
  mapFilterByType objectType e.actionsInfos

def GetAllConditionsForObject (e : PlatformExtension) (objectType : String) :
    List (String × InstructionMetadata) :=
  mapFilterByType objectType e.conditionsInfos

def GetAllExpressionsForObject (e : PlatformExtension) (objectType : String) :
    List (String × ExpressionMetadata) :=
  mapFilterByType objectType e.expressionsInfos

def GetAllStrExpressionsForObject (e : PlatformExtension) (objectType : String) :
    List (String × ExpressionMetadata) :=
  mapFilterByType objectType e.strExpressionsInfos

def GetAllActionsForBehavior (e : PlatformExtension) (autoType : String) :
    List (String × InstructionMetadata) :=
  mapFilterByType autoType e.actionsInfos

def GetAllConditionsForBehavior (e : PlatformExtension) (autoType : String) :
    List (String × InstructionMetadata) :=
  mapFilterByType autoType e.conditionsInfos

def GetAllExpressionsForBehavior (e : PlatformExtension) (autoType : String) :
    List (String × ExpressionMetadata) :=
  mapFilterByType autoType e.expressionsInfos

def GetAllStrExpressionsForBehavior (e : PlatformExtension) (autoType : String) :
    List (String × ExpressionMetadata) :=
  mapFilterByType autoType e.strExpressionsInfos

/-- Mutation through the reference returned by AddCondition, modelled as
rewriting the stored record at the returned handle (builder chaining, spec
section 4.2). -/
def MutateConditionAt (e : PlatformExtension) (key : String)
    (f : InstructionMetadata → InstructionMetadata) : PlatformExtension :=
  match mapFind key e.conditionsInfos with
  | some m => { e with conditionsInfos := mapInsert key (f m) e.conditionsInfos }
  | none => e

/-
Concrete fixtures used by witnesses and counterexamples.
-/

/-- A blueprint object supplied to AddObject in the fixtures. -/
def objW : Object := { name := "", payload := "blueprint" }

/-- A behavior exemplar supplied to AddBehavior in the fixtures. -/
def behW : Behavior := { name := "beh", content := "b" }

/-- A shared data exemplar supplied to AddBehavior in the fixtures. -/
def sharedW : BehaviorsSharedData := { content := "s" }

/-- An event exemplar supplied to AddEvent in the fixtures. -/
def evW : BaseEvent := { eventType := "evt", content := "e" }

/-- An extension whose identity was set with name MyExt, hence whose
namespace is MyExt followed by the separator. -/
def extMy : PlatformExtension :=
  SetExtensionInformation {} "MyExt" "My extension" "desc" "me" "MIT"

/-- A default constructed extension (empty namespace) holding one object and
one behavior, registered under the verbatim keys Obj and Beh. -/
def extObjs : PlatformExtension :=
  (AddBehavior (AddObject {} "Obj" "Obj full" "d" "icon" objW).1
    "Beh" "fb" "dn" "d" "g" "i" "cls" behW (some sharedW)).1

/-- The object record extObjs stores under the key Obj. -/
def objRecW : ObjectMetadata :=
  { name := "Obj", fullname := "Obj full", description := "d",
    icon24x24 := "icon", createFunPtr := some (cloneWithName objW) }

/-- The behavior record extObjs stores under the key Beh. -/
def behRecW : BehaviorMetadata :=
  { name := "Beh", fullname := "fb", defaultName := "dn", description := "d",
    group := "g", icon24x24 := "i", className := "cls", instance_ := behW,
    sharedDatasInstance := some sharedW }

/-- A default constructed extension (empty namespace) where the action keyed
T::b was registered before the action keyed T::a: registration order differs
from the key order of the catalog map. -/
def extOrder : PlatformExtension :=
  (AddAction (AddAction {} "T::b" "B" "d" "s" "g" "i" "si").1
    "T::a" "A" "d" "s" "g" "i" "si").1


/-
General lemmas about the std::map embedding.
-/

theorem charListLt_irrefl (l : List Char) : charListLt l l = false := by
  induction l with
  | nil => rfl
  | cons a as ih => simp [charListLt, ih]

theorem charListLt_asymm {l1 l2 : List Char} (h : charListLt l1 l2 = true) :
    charListLt l2 l1 = false := by
  induction l1 generalizing l2 with
  | nil =>
    cases l2 with
    | nil => simp [charListLt] at h
    | cons b bs => rfl
  | cons a as ih =>
    cases l2 with
    | nil => simp [charListLt] at h
    | cons b bs =>
      simp only [charListLt] at h ⊢
      by_cases hab : a.toNat < b.toNat
      · rw [if_neg (Nat.lt_asymm hab), if_pos hab]
      · by_cases hba : b.toNat < a.toNat
        · rw [if_neg hab, if_pos hba] at h
          cases h
        · rw [if_neg hab, if_neg hba] at h
          rw [if_neg hba, if_neg hab]
          exact ih h

theorem charListLt_trans {l1 l2 l3 : List Char} (h1 : charListLt l1 l2 = true)
    (h2 : charListLt l2 l3 = true) : charListLt l1 l3 = true := by
  induction l1 generalizing l2 l3 with
  | nil =>
    cases l2 with
    | nil => simp [charListLt] at h1
    | cons b bs =>
      cases l3 with
      | nil => simp [charListLt] at h2
      | cons c cs => rfl
  | cons a as ih =>
    cases l2 with
    | nil => simp [charListLt] at h1
    | cons b bs =>
      cases l3 with
      | nil => simp [charListLt] at h2
      | cons c cs =>
        simp only [charListLt] at h1 h2 ⊢
        by_cases hab : a.toNat < b.toNat
        · by_cases hbc : b.toNat < c.toNat
          · rw [if_pos (Nat.lt_trans hab hbc)]
          · by_cases hcb : c.toNat < b.toNat
            · rw [if_neg hbc, if_pos hcb] at h2
              cases h2
            · have hac : a.toNat < c.toNat := by omega
              rw [if_pos hac]
        · by_cases hba : b.toNat < a.toNat
          · rw [if_neg hab, if_pos hba] at h1
            cases h1
          · rw [if_neg hab, if_neg hba] at h1
            by_cases hbc : b.toNat < c.toNat
            · have hac : a.toNat < c.toNat := by omega
              rw [if_pos hac]
            · by_cases hcb : c.toNat < b.toNat
              · rw [if_neg hbc, if_pos hcb] at h2
                cases h2
              · rw [if_neg hbc, if_neg hcb] at h2
                have hac : ¬a.toNat < c.toNat := by omega
                have hca : ¬c.toNat < a.toNat := by omega
                rw [if_neg hac, if_neg hca]
                exact ih h1 h2

theorem charListLt_total {l1 l2 : List Char} (h1 : charListLt l1 l2 = false)
    (h2 : charListLt l2 l1 = false) : l1 = l2 := by
  induction l1 generalizing l2 with
  | nil =>
    cases l2 with
    | nil => rfl
    | cons b bs => simp [charListLt] at h1
  | cons a as ih =>
    cases l2 with
    | nil => simp [charListLt] at h2
    | cons b bs =>
      simp only [charListLt] at h1 h2
      by_cases hab : a.toNat < b.toNat
      · rw [if_pos hab] at h1
        cases h1
      · by_cases hba : b.toNat < a.toNat
        · rw [if_pos hba] at h2
          cases h2
        · rw [if_neg hab, if_neg hba] at h1
          rw [if_neg hba, if_neg hab] at h2
          have hn : a.toNat = b.toNat := by omega
          have hchar : a = b := Char.ext (UInt32.ext hn)
          rw [hchar, ih h1 h2]

theorem keyLt_irrefl (a : String) : keyLt a a = false :=
  charListLt_irrefl a.data

theorem keyLt_asymm {a b : String} (h : keyLt a b = true) : keyLt b a = false :=
  charListLt_asymm h

theorem keyLt_trans {a b c : String} (h1 : keyLt a b = true)
    (h2 : keyLt b c = true) : keyLt a c = true :=
  charListLt_trans h1 h2

theorem keyLt_total {a b : String} (h1 : keyLt a b = false)
    (h2 : keyLt b a = false) : a = b :=
  String.ext (charListLt_total h1 h2)

theorem keyLt_ne {a b : String} (h : keyLt a b = true) : a ≠ b := by
  intro he
  rw [he, keyLt_irrefl] at h
  cases h

theorem keyLt_trichotomy (a b : String) :
    keyLt a b = true ∨ a = b ∨ keyLt b a = true := by
  cases h1 : keyLt a b with
  | true => exact Or.inl rfl
  | false =>
    cases h2 : keyLt b a with
    | true => exact Or.inr (Or.inr rfl)
    | false => exact Or.inr (Or.inl (keyLt_total h1 h2))

theorem keyLt_not_of_gt {a b : String} (h : keyLt b a = true) :
    ¬keyLt a b = true := by
  rw [keyLt_asymm h]
  exact Bool.false_ne_true

theorem mapInsert_cons_lt {V : Type} {k : String} {p : String × V} (v : V)
    (rest : List (String × V)) (h : keyLt k p.1 = true) :
    mapInsert k v (p :: rest) = (k, v) :: p :: rest := by
  simp only [mapInsert]
  rw [if_pos h]

theorem mapInsert_cons_eq {V : Type} {k : String} {p : String × V} (v : V)
    (rest : List (String × V)) (h : k = p.1) :
    mapInsert k v (p :: rest) = (k, v) :: rest := by
  simp only [mapInsert]
  rw [if_neg (by rw [h, keyLt_irrefl]; exact Bool.false_ne_true), if_pos h]

theorem mapInsert_cons_gt {V : Type} {k : String} {p : String × V} (v : V)
    (rest : List (String × V)) (h : keyLt p.1 k = true) :
    mapInsert k v (p :: rest) = p :: mapInsert k v rest := by
  simp only [mapInsert]
  rw [if_neg (keyLt_not_of_gt h), if_neg (Ne.symm (keyLt_ne h))]

theorem mapFind_mapInsert_self {V : Type} (k : String) (v : V)
    (m : List (String × V)) : mapFind k (mapInsert k v m) = some v := by
  induction m with
  | nil => simp [mapInsert, mapFind]
  | cons p rest ih =>
    rcases keyLt_trichotomy k p.1 with h | h | h
    · rw [mapInsert_cons_lt v rest h]
      simp [mapFind]
    · rw [mapInsert_cons_eq v rest h]
      simp [mapFind]
    · rw [mapInsert_cons_gt v rest h]
      rw [mapFind, if_neg (Ne.symm (keyLt_ne h))]
      exact ih

theorem mapFind_mapInsert_ne {V : Type} {k k' : String} (v : V)
    (m : List (String × V)) (h : k' ≠ k) :
    mapFind k' (mapInsert k v m) = mapFind k' m := by
  induction m with
  | nil => simp [mapInsert, mapFind, h]
  | cons p rest ih =>
    rcases keyLt_trichotomy k p.1 with h1 | h1 | h1
    · rw [mapInsert_cons_lt v rest h1]
      rw [mapFind, if_neg h]
    · rw [mapInsert_cons_eq v rest h1]
      rw [mapFind, if_neg h, mapFind, if_neg (h1 ▸ h)]
    · rw [mapInsert_cons_gt v rest h1]
      by_cases h3 : k' = p.1
      · rw [mapFind, if_pos h3, mapFind, if_pos h3]
      · rw [mapFind, if_neg h3, mapFind, if_neg h3]
        exact ih

theorem length_mapInsert_mapInsert {V : Type} (k : String) (v1 v2 : V)
    (m : List (String × V)) :
    (mapInsert k v2 (mapInsert k v1 m)).length = (mapInsert k v1 m).length := by
  induction m with
  | nil =>
    show (mapInsert k v2 [(k, v1)]).length = 1
    rw [mapInsert_cons_eq (p := (k, v1)) v2 [] rfl]
    rfl
  | cons p rest ih =>
    rcases keyLt_trichotomy k p.1 with h1 | h1 | h1
    · rw [mapInsert_cons_lt v1 rest h1, mapInsert_cons_eq (p := (k, v1)) v2 (p :: rest) rfl]
      rfl
    · rw [mapInsert_cons_eq v1 rest h1, mapInsert_cons_eq (p := (k, v1)) v2 rest rfl]
      rfl
    · rw [mapInsert_cons_gt v1 rest h1, mapInsert_cons_gt v2 (mapInsert k v1 rest) h1]
      simp only [List.length_cons, ih]

theorem mem_mapInsert {V : Type} {x : String × V} {k : String} {v : V}
    {m : List (String × V)} (hx : x ∈ mapInsert k v m) : x = (k, v) ∨ x ∈ m := by
  induction m with
  | nil => simpa [mapInsert] using hx
  | cons p rest ih =>
    rcases keyLt_trichotomy k p.1 with h1 | h1 | h1
    · rw [mapInsert_cons_lt v rest h1] at hx
      simpa using hx
    · rw [mapInsert_cons_eq v rest h1] at hx
      rw [List.mem_cons] at hx
      rcases hx with hx | hx
      · exact Or.inl hx
      · exact Or.inr (List.mem_cons_of_mem _ hx)
    · rw [mapInsert_cons_gt v rest h1] at hx
      rw [List.mem_cons] at hx
      rcases hx with hx | hx
      · exact Or.inr (hx ▸ List.mem_cons_self p rest)
      · rcases ih hx with h | h
        · exact Or.inl h
        · exact Or.inr (List.mem_cons_of_mem _ h)

theorem mapSorted_mapInsert {V : Type} (k : String) (v : V)
    {m : List (String × V)} (h : mapSorted m) : mapSorted (mapInsert k v m) := by
  induction m with
  | nil => simp [mapInsert, mapSorted]
  | cons p rest ih =>
    rw [mapSorted, List.pairwise_cons] at h
    obtain ⟨hall, hrest⟩ := h
    rcases keyLt_trichotomy k p.1 with h1 | h1 | h1
    · rw [mapSorted, mapInsert_cons_lt v rest h1, List.pairwise_cons]
      constructor
      · intro b hb
        rw [List.mem_cons] at hb
        rcases hb with hb | hb
        · rw [hb]
          exact h1
        · exact keyLt_trans h1 (hall b hb)
      · rw [List.pairwise_cons]
        exact ⟨hall, hrest⟩
    · rw [mapSorted, mapInsert_cons_eq v rest h1, List.pairwise_cons]
      constructor
      · intro b hb
        show keyLt k b.1 = true
        rw [h1]
        exact hall b hb
      · exact hrest
    · rw [mapSorted, mapInsert_cons_gt v rest h1, List.pairwise_cons]
      constructor
      · intro b hb
        rcases mem_mapInsert hb with hb | hb
        · rw [hb]
          exact h1
        · exact hall b hb
      · exact ih hrest

theorem mapCount_eq_zero_of_lt {V : Type} (k : String)
    {m : List (String × V)} (hall : ∀ b ∈ m, keyLt k b.1 = true) :
    mapCount k m = 0 := by
  induction m with
  | nil => rfl
  | cons p rest ih =>
    have hhd : keyLt k p.1 = true := hall p (List.mem_cons_self p rest)
    rw [mapCount, if_neg (Ne.symm (keyLt_ne hhd))]
    simp only [Nat.zero_add]
    exact ih (fun b hb => hall b (List.mem_cons_of_mem p hb))

theorem mapCount_mapInsert_sorted {V : Type} (k : String) (v : V)
    {m : List (String × V)} (h : mapSorted m) :
    mapCount k (mapInsert k v m) = 1 := by
  induction m with
  | nil => simp [mapInsert, mapCount]
  | cons p rest ih =>
    rw [mapSorted, List.pairwise_cons] at h
    obtain ⟨hall, hrest⟩ := h
    rcases keyLt_trichotomy k p.1 with h1 | h1 | h1
    · rw [mapInsert_cons_lt v rest h1]
      have hz : mapCount k (p :: rest) = 0 := by
        apply mapCount_eq_zero_of_lt
        intro b hb
        rw [List.mem_cons] at hb
        rcases hb with hb | hb
        · rw [hb]
          exact h1
        · exact keyLt_trans h1 (hall b hb)
      rw [mapCount, if_pos rfl, hz]
    · rw [mapInsert_cons_eq v rest h1]
      have hz : mapCount k rest = 0 := by
        apply mapCount_eq_zero_of_lt
        intro b hb
        show keyLt k b.1 = true
        rw [h1]
        exact hall b hb
      rw [mapCount, if_pos rfl, hz]
    · rw [mapInsert_cons_gt v rest h1]
      rw [mapCount, if_neg (keyLt_ne h1)]
      simp [ih hrest]

theorem mapFind_isSome_iff_mem {V : Type} (k : String) (m : List (String × V)) :
    (mapFind k m).isSome = true ↔ k ∈ m.map Prod.fst := by
  induction m with
  | nil => simp [mapFind]
  | cons p rest ih =>
    by_cases h : k = p.1
    · simp [mapFind, h]
    · simp [mapFind, h, ih]

theorem mapSorted_keys_nodup {V : Type} {m : List (String × V)}
    (h : mapSorted m) : (m.map Prod.fst).Nodup := by
  refine List.Pairwise.map Prod.fst (fun a b hab => ?_) h
  exact keyLt_ne hab

theorem mapSorted_nil {V : Type} : mapSorted ([] : List (String × V)) :=
  List.Pairwise.nil

theorem mapSorted_single {V : Type} (p : String × V) : mapSorted [p] := by
  simp [mapSorted]

/-
Claim theorems.
-/

/-- Claim C1: for every extension and every key, GetObjectMetadata and
GetBehaviorMetadata return the stored record when the key is present in the
corresponding catalog and the category sentinel record otherwise; the result
is always a well defined record (the C++ signature returns a plain reference,
never null), and every miss yields one and the same sentinel record. -/
theorem claim1_metadata_lookup_sentinel (e : PlatformExtension) (t : String) :
    (∀ m, mapFind t e.objectsInfos = some m → GetObjectMetadata e t = m)
    ∧ (mapFind t e.objectsInfos = none → GetObjectMetadata e t = badObjectMetadata)
    ∧ (∀ m, mapFind t e.behaviorsInfo = some m → GetBehaviorMetadata e t = m)
    ∧ (mapFind t e.behaviorsInfo = none → GetBehaviorMetadata e t = badBehaviorMetadata)
    ∧ (∀ t2, mapFind t e.objectsInfos = none → mapFind t2 e.objectsInfos = none →
        GetObjectMetadata e t = GetObjectMetadata e t2)
    ∧ (∀ t2, mapFind t e.behaviorsInfo = none → mapFind t2 e.behaviorsInfo = none →
        GetBehaviorMetadata e t = GetBehaviorMetadata e t2) := by
  refine ⟨?_, ?_, ?_, ?_, ?_, ?_⟩
  · intro m h
    simp [GetObjectMetadata, h]
  · intro h
    simp [GetObjectMetadata, h]
  · intro m h
    simp [GetBehaviorMetadata, h]
  · intro h
    simp [GetBehaviorMetadata, h]
  · intro t2 h1 h2
    simp [GetObjectMetadata, h1, h2]
  · intro t2 h1 h2
    simp [GetBehaviorMetadata, h1, h2]

/-- Witness for claim C1 at concrete inputs: a hit returns the stored record,
a miss returns the sentinel. -/
theorem claim1_metadata_lookup_sentinel_witness :
    GetObjectMetadata extObjs "Obj" = objRecW
    ∧ GetObjectMetadata extObjs "Missing" = badObjectMetadata
    ∧ GetBehaviorMetadata extObjs "Beh" = behRecW
    ∧ GetBehaviorMetadata extObjs "Missing" = badBehaviorMetadata :=
  ⟨(claim1_metadata_lookup_sentinel extObjs "Obj").1 objRecW rfl,
   (claim1_metadata_lookup_sentinel extObjs "Missing").2.1 rfl,
   (claim1_metadata_lookup_sentinel extObjs "Beh").2.2.1 behRecW rfl,
   (claim1_metadata_lookup_sentinel extObjs "Missing").2.2.2.1 rfl⟩

/-- Claim C2 counterexample: the header declares the object and behavior
sentinels as plain data members of PlatformExtension (lines 466 and 467), not
static ones, so the claim that for every category the sentinel is process
wide and shared across all extension instances is false: each extension
instance owns its own object sentinel and its own behavior sentinel. -/
theorem claim2_sentinel_not_process_wide :
    sentinelStorage SentinelCategory.object = CxxStorage.instanceMember
    ∧ sentinelStorage SentinelCategory.behavior = CxxStorage.instanceMember
    ∧ ¬(∀ c, sentinelStorage c = CxxStorage.staticMember) := by
  refine ⟨rfl, rfl, ?_⟩
  intro h
  have hx := h SentinelCategory.object
  simp [sentinelStorage] at hx

/-- Claim C2 amended: the condition, action, expression and string expression
sentinels are process wide static members shared by all extensions, while the
object and behavior sentinels are per extension instance members; no sentinel
is ever mutated by the registry (they are constants of the model) and
registration only ever inserts the record built from the call arguments, so
the registry itself never inserts a sentinel into a catalog. -/
theorem claim2_sentinel_storage_amended :
    sentinelStorage SentinelCategory.condition = CxxStorage.staticMember
    ∧ sentinelStorage SentinelCategory.action = CxxStorage.staticMember
    ∧ sentinelStorage SentinelCategory.expression = CxxStorage.staticMember
    ∧ sentinelStorage SentinelCategory.strExpression = CxxStorage.staticMember
    ∧ sentinelStorage SentinelCategory.object = CxxStorage.instanceMember
    ∧ sentinelStorage SentinelCategory.behavior = CxxStorage.instanceMember
    ∧ (∀ (e : PlatformExtension) (k fn d ic : String) (inst : Object),
        ((AddObject e k fn d ic inst).1).objectsInfos
          = mapInsert (nameWithNamespace e k)
              { name := nameWithNamespace e k, fullname := fn, description := d,
                icon24x24 := ic, createFunPtr := some (cloneWithName inst) }
              e.objectsInfos)
    ∧ (∀ (e : PlatformExtension) (k fn dn d g ic cn : String)
        (inst : Behavior) (sh : Option BehaviorsSharedData),
        ((AddBehavior e k fn dn d g ic cn inst sh).1).behaviorsInfo
          = mapInsert (nameWithNamespace e k)
              { name := nameWithNamespace e k, fullname := fn, defaultName := dn,
                description := d, group := g, icon24x24 := ic, className := cn,
                instance_ := inst, sharedDatasInstance := sh }
              e.behaviorsInfo) := by
  refine ⟨rfl, rfl, rfl, rfl, rfl, rfl, ?_, ?_⟩
  · intro e k fn d ic inst
    rfl
  · intro e k fn dn d g ic cn inst sh
    rfl

/-- Claim C3 counterexample: with an extension named MyExt, AddCondition with
the supplied name Jump stores the record under MyExt::Jump, and a lookup with
the verbatim key Jump misses; the registry therefore does prepend the
extension namespace to the supplied key before insertion, refuting the claim
(which also contradicts the header comment on the nameSpace member, lines 443
to 446: the namespace is added to every registered capability). -/
theorem claim3_verbatim_key_storage_refuted :
    mapFind "Jump" ((AddCondition extMy "Jump" "J" "d" "s" "g" "i" "si").1.conditionsInfos) = none
    ∧ mapFind "MyExt::Jump" ((AddCondition extMy "Jump" "J" "d" "s" "g" "i" "si").1.conditionsInfos)
        = some { name := "MyExt::Jump", fullname := "J", description := "d",
                 sentence := "s", group := "g", icon := "i", smallicon := "si" } :=
  ⟨rfl, rfl⟩

/-- Claim C3 amended: every Add operation stores its record under the
namespaced key (the extension namespace prepended to the supplied name), the
returned handle is that key, a lookup with the namespaced key finds the
record, and the supplied key is used verbatim exactly when the namespace is
empty. -/
theorem claim3_namespaced_insertion (e : PlatformExtension)
    (k fn d s g ic si : String) :
    (AddCondition e k fn d s g ic si).2 = e.nameSpace ++ k
    ∧ mapFind (e.nameSpace ++ k) ((AddCondition e k fn d s g ic si).1.conditionsInfos)
        = some { name := e.nameSpace ++ k, fullname := fn, description := d,
                 sentence := s, group := g, icon := ic, smallicon := si }
    ∧ (AddAction e k fn d s g ic si).2 = e.nameSpace ++ k
    ∧ mapFind (e.nameSpace ++ k) ((AddAction e k fn d s g ic si).1.actionsInfos)
        = some { name := e.nameSpace ++ k, fullname := fn, description := d,
                 sentence := s, group := g, icon := ic, smallicon := si }
    ∧ (e.nameSpace = "" → (AddCondition e k fn d s g ic si).2 = k) := by
  refine ⟨rfl, ?_, rfl, ?_, ?_⟩
  · exact mapFind_mapInsert_self _ _ _
  · exact mapFind_mapInsert_self _ _ _
  · intro h
    show nameWithNamespace e k = k
    rw [nameWithNamespace, h]
    simp

/-- Witness for the amended claim C3: the namespaced handle for extension
MyExt, and the verbatim handle for a default constructed extension. -/
theorem claim3_namespaced_insertion_witness :
    (AddCondition extMy "Jump" "J" "d" "s" "g" "i" "si").2 = "MyExt::Jump"
    ∧ (AddCondition {} "Jump" "J" "d" "s" "g" "i" "si").2 = "Jump" := by
  have h1 := claim3_namespaced_insertion extMy "Jump" "J" "d" "s" "g" "i" "si"
  have h2 := claim3_namespaced_insertion {} "Jump" "J" "d" "s" "g" "i" "si"
  exact ⟨h1.1, h2.2.2.2.2 rfl⟩

theorem mapFilterByType_mem_sublist_empty {V : Type} (t : String)
    (m : List (String × V)) :
    (∀ p, p ∈ mapFilterByType t m ↔ p ∈ m ∧ keyStartsWith t p.1 = true)
    ∧ List.Sublist (mapFilterByType t m) m
    ∧ ((∀ p ∈ m, keyStartsWith t p.1 = false) → mapFilterByType t m = []) := by
  refine ⟨?_, ?_, ?_⟩
  · intro p
    simp [mapFilterByType, List.mem_filter]
  · exact List.filter_sublist m
  · intro h
    rw [mapFilterByType, List.filter_eq_nil_iff]
    intro a ha
    simp [h a ha]

/-- Claim C4 counterexample: in extOrder the action keyed T::b was registered
before the action keyed T::a, so the insertion order of the two matching
entries is T::b then T::a, yet the filtered view enumerates T::a then T::b
(the ascending key order of the std::map catalog declared in the header),
refuting enumeration in insertion order. -/
theorem claim4_insertion_order_refuted :
    (GetAllActionsForObject extOrder "T").map Prod.fst = ["T::a", "T::b"]
    ∧ ["T::a", "T::b"] ≠ ["T::b", "T::a"] := by
  refine ⟨rfl, ?_⟩
  decide

/-- Claim C4 amended: each of the eight filtered views contains exactly the
entries of the corresponding flat catalog whose key starts with the given
object or behavior type, enumerated in the catalog iteration order (the
ascending key order of std::map, not registration order), and is the empty
(bad) mapping, not an error, when no entry matches. -/
theorem claim4_filtered_views (e : PlatformExtension) (t : String) :
    ((∀ p, p ∈ GetAllActionsForObject e t ↔ p ∈ GetAllActions e ∧ keyStartsWith t p.1 = true)
      ∧ List.Sublist (GetAllActionsForObject e t) (GetAllActions e)
      ∧ ((∀ p ∈ GetAllActions e, keyStartsWith t p.1 = false) → GetAllActionsForObject e t = []))
    ∧ ((∀ p, p ∈ GetAllConditionsForObject e t ↔ p ∈ GetAllConditions e ∧ keyStartsWith t p.1 = true)
      ∧ List.Sublist (GetAllConditionsForObject e t) (GetAllConditions e)
      ∧ ((∀ p ∈ GetAllConditions e, keyStartsWith t p.1 = false) → GetAllConditionsForObject e t = []))
    ∧ ((∀ p, p ∈ GetAllExpressionsForObject e t ↔ p ∈ GetAllExpressions e ∧ keyStartsWith t p.1 = true)
      ∧ List.Sublist (GetAllExpressionsForObject e t) (GetAllExpressions e)
      ∧ ((∀ p ∈ GetAllExpressions e, keyStartsWith t p.1 = false) → GetAllExpressionsForObject e t = []))
    ∧ ((∀ p, p ∈ GetAllStrExpressionsForObject e t ↔ p ∈ GetAllStrExpressions e ∧ keyStartsWith t p.1 = true)
      ∧ List.Sublist (GetAllStrExpressionsForObject e t) (GetAllStrExpressions e)
      ∧ ((∀ p ∈ GetAllStrExpressions e, keyStartsWith t p.1 = false) → GetAllStrExpressionsForObject e t = []))
    ∧ ((∀ p, p ∈ GetAllActionsForBehavior e t ↔ p ∈ GetAllActions e ∧ keyStartsWith t p.1 = true)
      ∧ List.Sublist (GetAllActionsForBehavior e t) (GetAllActions e)
      ∧ ((∀ p ∈ GetAllActions e, keyStartsWith t p.1 = false) → GetAllActionsForBehavior e t = []))
    ∧ ((∀ p, p ∈ GetAllConditionsForBehavior e t ↔ p ∈ GetAllConditions e ∧ keyStartsWith t p.1 = true)
      ∧ List.Sublist (GetAllConditionsForBehavior e t) (GetAllConditions e)
      ∧ ((∀ p ∈ GetAllConditions e, keyStartsWith t p.1 = false) → GetAllConditionsForBehavior e t = []))
    ∧ ((∀ p, p ∈ GetAllExpressionsForBehavior e t ↔ p ∈ GetAllExpressions e ∧ keyStartsWith t p.1 = true)
      ∧ List.Sublist (GetAllExpressionsForBehavior e t) (GetAllExpressions e)
      ∧ ((∀ p ∈ GetAllExpressions e, keyStartsWith t p.1 = false) → GetAllExpressionsForBehavior e t = []))
    ∧ ((∀ p, p ∈ GetAllStrExpressionsForBehavior e t ↔ p ∈ GetAllStrExpressions e ∧ keyStartsWith t p.1 = true)
      ∧ List.Sublist (GetAllStrExpressionsForBehavior e t) (GetAllStrExpressions e)
      ∧ ((∀ p ∈ GetAllStrExpressions e, keyStartsWith t p.1 = false) → GetAllStrExpressionsForBehavior e t = [])) :=
  ⟨mapFilterByType_mem_sublist_empty t e.actionsInfos,
   mapFilterByType_mem_sublist_empty t e.conditionsInfos,
   mapFilterByType_mem_sublist_empty t e.expressionsInfos,
   mapFilterByType_mem_sublist_empty t e.strExpressionsInfos,
   mapFilterByType_mem_sublist_empty t e.actionsInfos,
   mapFilterByType_mem_sublist_empty t e.conditionsInfos,
   mapFilterByType_mem_sublist_empty t e.expressionsInfos,
   mapFilterByType_mem_sublist_empty t e.strExpressionsInfos⟩

/-- Witness for the amended claim C4: a type matching no key yields the empty
mapping. -/
theorem claim4_filtered_views_witness :
    GetAllActionsForObject extOrder "Z" = [] :=
  (claim4_filtered_views extOrder "Z").1.2.2 (by decide)

/-- Claim C5: registering the same key twice leaves exactly one record under
that key, the catalog does not grow on the second registration, the stored
fields are those of the second registration, and no error is raised (the
operations are total); shown for the condition, action and object catalogs of
any extension whose catalogs satisfy the std::map ordering invariant. -/
theorem claim5_last_write_wins (e : PlatformExtension) (k : String)
    (fn1 d1 s1 g1 i1 j1 fn2 d2 s2 g2 i2 j2 : String) (inst1 inst2 : Object)
    (hc : mapSorted e.conditionsInfos) (ha : mapSorted e.actionsInfos)
    (ho : mapSorted e.objectsInfos) :
    (mapCount (e.nameSpace ++ k)
        ((AddCondition (AddCondition e k fn1 d1 s1 g1 i1 j1).1 k fn2 d2 s2 g2 i2 j2).1.conditionsInfos) = 1
      ∧ mapFind (e.nameSpace ++ k)
          ((AddCondition (AddCondition e k fn1 d1 s1 g1 i1 j1).1 k fn2 d2 s2 g2 i2 j2).1.conditionsInfos)
          = some { name := e.nameSpace ++ k, fullname := fn2, description := d2,
                   sentence := s2, group := g2, icon := i2, smallicon := j2 }
      ∧ ((AddCondition (AddCondition e k fn1 d1 s1 g1 i1 j1).1 k fn2 d2 s2 g2 i2 j2).1.conditionsInfos).length
          = ((AddCondition e k fn1 d1 s1 g1 i1 j1).1.conditionsInfos).length)
    ∧ (mapCount (e.nameSpace ++ k)
        ((AddAction (AddAction e k fn1 d1 s1 g1 i1 j1).1 k fn2 d2 s2 g2 i2 j2).1.actionsInfos) = 1
      ∧ mapFind (e.nameSpace ++ k)
          ((AddAction (AddAction e k fn1 d1 s1 g1 i1 j1).1 k fn2 d2 s2 g2 i2 j2).1.actionsInfos)
          = some { name := e.nameSpace ++ k, fullname := fn2, description := d2,
                   sentence := s2, group := g2, icon := i2, smallicon := j2 }
      ∧ ((AddAction (AddAction e k fn1 d1 s1 g1 i1 j1).1 k fn2 d2 s2 g2 i2 j2).1.actionsInfos).length
          = ((AddAction e k fn1 d1 s1 g1 i1 j1).1.actionsInfos).length)
    ∧ (mapCount (e.nameSpace ++ k)
        ((AddObject (AddObject e k fn1 d1 i1 inst1).1 k fn2 d2 i2 inst2).1.objectsInfos) = 1
      ∧ mapFind (e.nameSpace ++ k)
          ((AddObject (AddObject e k fn1 d1 i1 inst1).1 k fn2 d2 i2 inst2).1.objectsInfos)
          = some { name := e.nameSpace ++ k, fullname := fn2, description := d2,
                   icon24x24 := i2, createFunPtr := some (cloneWithName inst2) }
      ∧ ((AddObject (AddObject e k fn1 d1 i1 inst1).1 k fn2 d2 i2 inst2).1.objectsInfos).length
          = ((AddObject e k fn1 d1 i1 inst1).1.objectsInfos).length) := by
  refine ⟨⟨?_, ?_, ?_⟩, ⟨?_, ?_, ?_⟩, ⟨?_, ?_, ?_⟩⟩
  · exact mapCount_mapInsert_sorted _ _ (mapSorted_mapInsert _ _ hc)
  · exact mapFind_mapInsert_self _ _ _
  · exact length_mapInsert_mapInsert _ _ _ _
  · exact mapCount_mapInsert_sorted _ _ (mapSorted_mapInsert _ _ ha)
  · exact mapFind_mapInsert_self _ _ _
  · exact length_mapInsert_mapInsert _ _ _ _
  · exact mapCount_mapInsert_sorted _ _ (mapSorted_mapInsert _ _ ho)
  · exact mapFind_mapInsert_self _ _ _
  · exact length_mapInsert_mapInsert _ _ _ _

/-- Witness for claim C5 on a fresh extension: two registrations of the key c
leave one record with the fields of the second call. -/
theorem claim5_last_write_wins_witness :
    mapCount "c"
        ((AddCondition (AddCondition {} "c" "f1" "d1" "s1" "g1" "i1" "j1").1 "c" "f2" "d2" "s2" "g2" "i2" "j2").1.conditionsInfos) = 1
    ∧ mapFind "c"
        ((AddCondition (AddCondition {} "c" "f1" "d1" "s1" "g1" "i1" "j1").1 "c" "f2" "d2" "s2" "g2" "i2" "j2").1.conditionsInfos)
        = some { name := "c", fullname := "f2", description := "d2",
                 sentence := "s2", group := "g2", icon := "i2", smallicon := "j2" } := by
  have h := claim5_last_write_wins {} "c" "f1" "d1" "s1" "g1" "i1" "j1"
    "f2" "d2" "s2" "g2" "i2" "j2" objW objW mapSorted_nil mapSorted_nil mapSorted_nil
  exact ⟨h.1.1, h.1.2.1⟩

/-- Claim C6 counterexample: with extension MyExt the call AddAction with the
supplied name Fly stores the record under MyExt::Fly; querying the supplied
key Fly immediately after registering misses (the full action map has no
binding for Fly), so the query does not return a record whose fields equal
the supplied arguments; the record lives at the namespaced key instead. -/
theorem claim6_verbatim_query_refuted :
    mapFind "Fly" (GetAllActions (AddAction extMy "Fly" "F" "d" "s" "g" "i" "si").1) = none
    ∧ mapFind "MyExt::Fly" (GetAllActions (AddAction extMy "Fly" "F" "d" "s" "g" "i" "si").1)
        = some { name := "MyExt::Fly", fullname := "F", description := "d",
                 sentence := "s", group := "g", icon := "i", smallicon := "si" } :=
  ⟨rfl, rfl⟩

/-- Claim C6 amended: for every category, registering and then querying at
the stored (namespaced) key returns a record whose descriptive fields equal
exactly the supplied arguments, and the reference returned by the Add call
designates that stored record: mutating through the returned handle is
observed by a later query. -/
theorem claim6_register_then_query (e : PlatformExtension)
    (k fn d s g ic si dn cn : String) (oinst : Object) (binst : Behavior)
    (bshared : Option BehaviorsSharedData) (evinst : BaseEvent) :
    mapFind (AddCondition e k fn d s g ic si).2
        (GetAllConditions (AddCondition e k fn d s g ic si).1)
        = some { name := e.nameSpace ++ k, fullname := fn, description := d,
                 sentence := s, group := g, icon := ic, smallicon := si }
    ∧ mapFind (AddAction e k fn d s g ic si).2
        (GetAllActions (AddAction e k fn d s g ic si).1)
        = some { name := e.nameSpace ++ k, fullname := fn, description := d,
                 sentence := s, group := g, icon := ic, smallicon := si }
    ∧ mapFind (AddExpression e k fn d g si).2
        (GetAllExpressions (AddExpression e k fn d g si).1)
        = some { name := e.nameSpace ++ k, fullname := fn, description := d,
                 group := g, smallicon := si }
    ∧ mapFind (AddStrExpression e k fn d g si).2
        (GetAllStrExpressions (AddStrExpression e k fn d g si).1)
        = some { name := e.nameSpace ++ k, fullname := fn, description := d,
                 group := g, smallicon := si }
    ∧ GetObjectMetadata (AddObject e k fn d ic oinst).1 (AddObject e k fn d ic oinst).2
        = { name := e.nameSpace ++ k, fullname := fn, description := d,
            icon24x24 := ic, createFunPtr := some (cloneWithName oinst) }
    ∧ GetBehaviorMetadata (AddBehavior e k fn dn d g ic cn binst bshared).1
        (AddBehavior e k fn dn d g ic cn binst bshared).2
        = { name := e.nameSpace ++ k, fullname := fn, defaultName := dn,
            description := d, group := g, icon24x24 := ic, className := cn,
            instance_ := binst, sharedDatasInstance := bshared }
    ∧ mapFind (AddEvent e k fn d g si evinst).2
        (GetAllEvents (AddEvent e k fn d g si evinst).1)
        = some { name := e.nameSpace ++ k, fullname := fn, description := d,
                 group := g, smallicon := si, instance_ := evinst }
    ∧ (∀ f : InstructionMetadata → InstructionMetadata,
        mapFind (AddCondition e k fn d s g ic si).2
            ((MutateConditionAt (AddCondition e k fn d s g ic si).1
                (AddCondition e k fn d s g ic si).2 f).conditionsInfos)
          = some (f { name := e.nameSpace ++ k, fullname := fn, description := d,
                      sentence := s, group := g, icon := ic, smallicon := si })) := by
  refine ⟨mapFind_mapInsert_self _ _ _, mapFind_mapInsert_self _ _ _,
          mapFind_mapInsert_self _ _ _, mapFind_mapInsert_self _ _ _,
          ?_, ?_, mapFind_mapInsert_self _ _ _, ?_⟩
  · have hf : mapFind (AddObject e k fn d ic oinst).2
        ((AddObject e k fn d ic oinst).1.objectsInfos)
        = some { name := e.nameSpace ++ k, fullname := fn, description := d,
                 icon24x24 := ic, createFunPtr := some (cloneWithName oinst) } :=
      mapFind_mapInsert_self _ _ _
    simp [GetObjectMetadata, hf]
  · have hf : mapFind (AddBehavior e k fn dn d g ic cn binst bshared).2
        ((AddBehavior e k fn dn d g ic cn binst bshared).1.behaviorsInfo)
        = some { name := e.nameSpace ++ k, fullname := fn, defaultName := dn,
                 description := d, group := g, icon24x24 := ic, className := cn,
                 instance_ := binst, sharedDatasInstance := bshared } :=
      mapFind_mapInsert_self _ _ _
    simp [GetBehaviorMetadata, hf]
  · intro f
    have hf : mapFind (AddCondition e k fn d s g ic si).2
        ((AddCondition e k fn d s g ic si).1.conditionsInfos)
        = some { name := e.nameSpace ++ k, fullname := fn, description := d,
                 sentence := s, group := g, icon := ic, smallicon := si } :=
      mapFind_mapInsert_self _ _ _
    simp only [MutateConditionAt, hf]
    exact mapFind_mapInsert_self _ _ _

/-- Claim C7: GetObjectCreationFunctionPtr returns the absent closure for
every unregistered object type; for a type registered through the instance
form of AddObject it returns the factory synthesized from the blueprint, and
that factory called with two different names produces two instances that
carry exactly those names and are distinct values, each a full copy of the
blueprint (value semantics: no state is shared between them). -/
theorem claim7_creation_function (e : PlatformExtension)
    (t k fn d ic : String) (inst : Object) :
    (mapFind t e.objectsInfos = none → GetObjectCreationFunctionPtr e t = none)
    ∧ GetObjectCreationFunctionPtr (AddObject e k fn d ic inst).1
        (AddObject e k fn d ic inst).2 = some (cloneWithName inst)
    ∧ (∀ n : String, (cloneWithName inst n).name = n)
    ∧ (∀ n1 n2 : String, n1 ≠ n2 → cloneWithName inst n1 ≠ cloneWithName inst n2)
    ∧ (∀ n1 n2 : String, (cloneWithName inst n1).payload = (cloneWithName inst n2).payload) := by
  refine ⟨?_, ?_, ?_, ?_, ?_⟩
  · intro h
    simp [GetObjectCreationFunctionPtr, h]
  · have hf : mapFind (AddObject e k fn d ic inst).2
        ((AddObject e k fn d ic inst).1.objectsInfos)
        = some { name := e.nameSpace ++ k, fullname := fn, description := d,
                 icon24x24 := ic, createFunPtr := some (cloneWithName inst) } :=
      mapFind_mapInsert_self _ _ _
    simp [GetObjectCreationFunctionPtr, hf]
  · intro n
    rfl
  · intro n1 n2 hne he
    exact hne (congrArg Object.name he)
  · intro n1 n2
    rfl

/-- Witness for claim C7: the miss case on a fresh extension, and the two
clones of the fixture blueprint with distinct names are distinct. -/
theorem claim7_creation_function_witness :
    GetObjectCreationFunctionPtr ({} : PlatformExtension) "Ghost" = none
    ∧ cloneWithName objW "a" ≠ cloneWithName objW "b" := by
  have h := claim7_creation_function {} "Ghost" "Obj" "f" "d" "i" objW
  refine ⟨h.1 rfl, h.2.2.2.1 "a" "b" ?_⟩
  decide

/-- Claim C8: CreateEvent returns an owned copy of the stored exemplar for a
registered event type and none for an unknown one; the returned copy is
independent of the catalog: applying an arbitrary mutation to it yields the
mutated copy while a repeated CreateEvent still returns the unmodified
exemplar copy. -/
theorem claim8_create_event (e : PlatformExtension)
    (t k fn d g si : String) (ev : BaseEvent) :
    (mapFind t e.eventsInfos = none → CreateEvent e t = none)
    ∧ CreateEvent (AddEvent e k fn d g si ev).1 (AddEvent e k fn d g si ev).2 = some ev
    ∧ (∀ mf : BaseEvent → BaseEvent,
        (CreateEvent (AddEvent e k fn d g si ev).1 (AddEvent e k fn d g si ev).2).map mf
          = some (mf ev)
        ∧ CreateEvent (AddEvent e k fn d g si ev).1 (AddEvent e k fn d g si ev).2 = some ev) := by
  have hf : mapFind (AddEvent e k fn d g si ev).2
      ((AddEvent e k fn d g si ev).1.eventsInfos)
      = some { name := e.nameSpace ++ k, fullname := fn, description := d,
               group := g, smallicon := si, instance_ := ev } :=
    mapFind_mapInsert_self _ _ _
  refine ⟨?_, ?_, ?_⟩
  · intro h
    simp [CreateEvent, h]
  · simp [CreateEvent, hf]
  · intro mf
    constructor
    · simp [CreateEvent, hf]
    · simp [CreateEvent, hf]

/-- Witness for claim C8: the miss case on a fresh extension and a hit right
after registration. -/
theorem claim8_create_event_witness :
    CreateEvent ({} : PlatformExtension) "Ghost" = none
    ∧ CreateEvent (AddEvent {} "Evt" "f" "d" "g" "s" evW).1 "Evt" = some evW := by
  have h := claim8_create_event {} "Ghost" "Evt" "f" "d" "g" "s" evW
  exact ⟨h.1 rfl, h.2.1⟩

/-- Claim C9: GetBehavior and GetBehaviorSharedDatas return exactly the
exemplar values stored at registration (the stored instances themselves, the
same on every call, not clones) when the behavior type is registered, and the
absent result when it is not. -/
theorem claim9_behavior_exemplar (e : PlatformExtension) (t : String)
    (k fn dn d g ic cn : String) (inst : Behavior)
    (sh : Option BehaviorsSharedData) :
    (mapFind t e.behaviorsInfo = none →
      GetBehavior e t = none ∧ GetBehaviorSharedDatas e t = none)
    ∧ (∀ md, mapFind t e.behaviorsInfo = some md →
      GetBehavior e t = some md.instance_
      ∧ GetBehaviorSharedDatas e t = md.sharedDatasInstance)
    ∧ GetBehavior (AddBehavior e k fn dn d g ic cn inst sh).1
        (AddBehavior e k fn dn d g ic cn inst sh).2 = some inst
    ∧ GetBehaviorSharedDatas (AddBehavior e k fn dn d g ic cn inst sh).1
        (AddBehavior e k fn dn d g ic cn inst sh).2 = sh := by
  have hf : mapFind (AddBehavior e k fn dn d g ic cn inst sh).2
      ((AddBehavior e k fn dn d g ic cn inst sh).1.behaviorsInfo)
      = some { name := e.nameSpace ++ k, fullname := fn, defaultName := dn,
               description := d, group := g, icon24x24 := ic, className := cn,
               instance_ := inst, sharedDatasInstance := sh } :=
    mapFind_mapInsert_self _ _ _
  refine ⟨?_, ?_, ?_, ?_⟩
  · intro h
    exact ⟨by simp [GetBehavior, h], by simp [GetBehaviorSharedDatas, h]⟩
  · intro md h
    exact ⟨by simp [GetBehavior, h], by simp [GetBehaviorSharedDatas, h]⟩
  · simp [GetBehavior, hf]
  · simp [GetBehaviorSharedDatas, hf]

/-- Witness for claim C9: miss and hit on the fixture extension. -/
theorem claim9_behavior_exemplar_witness :
    GetBehavior extObjs "Missing" = none
    ∧ GetBehavior extObjs "Beh" = some behW
    ∧ GetBehaviorSharedDatas extObjs "Beh" = some sharedW := by
  have h1 := claim9_behavior_exemplar extObjs "Missing" "B" "f" "dn" "d" "g" "i" "c" behW (some sharedW)
  have h2 := claim9_behavior_exemplar extObjs "Beh" "B" "f" "dn" "d" "g" "i" "c" behW (some sharedW)
  exact ⟨(h1.1 rfl).1, (h2.2.1 behRecW rfl).1, (h2.2.1 behRecW rfl).2⟩

/-- Claim C10: GetExtensionObjectsTypes and GetBehaviorsTypes enumerate
exactly the keys present in the object and behavior catalogs, one element per
registered type with no duplicates, for every extension whose catalogs
satisfy the std::map ordering invariant; both are pure queries (const in the
header) and leave the extension unchanged. -/
theorem claim10_type_enumerations (e : PlatformExtension)
    (hO : mapSorted e.objectsInfos) (hB : mapSorted e.behaviorsInfo) :
    (GetExtensionObjectsTypes e).Nodup
    ∧ (∀ t, t ∈ GetExtensionObjectsTypes e ↔ (mapFind t e.objectsInfos).isSome = true)
    ∧ (GetBehaviorsTypes e).Nodup
    ∧ (∀ t, t ∈ GetBehaviorsTypes e ↔ (mapFind t e.behaviorsInfo).isSome = true) := by
  refine ⟨mapSorted_keys_nodup hO, ?_, mapSorted_keys_nodup hB, ?_⟩
  · intro t
    exact (mapFind_isSome_iff_mem t e.objectsInfos).symm
  · intro t
    exact (mapFind_isSome_iff_mem t e.behaviorsInfo).symm

/-- Witness for claim C10 on the fixture extension. -/
theorem claim10_type_enumerations_witness :
    (GetExtensionObjectsTypes extObjs).Nodup
    ∧ "Obj" ∈ GetExtensionObjectsTypes extObjs
    ∧ "Beh" ∈ GetBehaviorsTypes extObjs := by
  have h := claim10_type_enumerations extObjs (mapSorted_single _) (mapSorted_single _)
  exact ⟨h.1, (h.2.1 "Obj").mpr rfl, (h.2.2.2 "Beh").mpr rfl⟩

end GD
